import Mathlib

/-!
# QuickCut WebUI — verification of `webui/server.py`

A shallow embedding of the pure core of `webui/server.py`:

* the timecode parser `parse_timecode` (including a model of Python's
  built-in `int(str)` conversion and of `str.strip` / `str.split`),
* the byte-range resolver `_parse_range` (including a model of the
  regular expression `bytes=(\d*)-(\d*)` matched at the start of the
  header, as `re.match` does),
* the pure status/header computation of the `/api/stream` route,
* the epoch computation of `run_ffmpeg_segment`,
* the output-path derivation and result/trash assembly of `/api/cut`
  (including models of `os.path.basename`, `os.path.dirname`,
  `os.path.splitext` and `os.path.join` in their POSIX form, which is
  the form in use on the macOS hosts the program targets),
* the `MAX_WORKERS` configuration value.

Conventions of the embedding:

* Python exceptions (`ValueError` from `int`/`parse_timecode`/
  `_parse_range`) are modelled by `Option`: `none` is the raised error.
* Python integers are unbounded, so they are modelled by `Int`
  (`Nat` where the source value is a count that cannot be negative).
* Digits and whitespace are modelled as ASCII.  Python's `\d` and
  `str.strip` also accept some non-ASCII characters; restricting to
  ASCII only shrinks the set of headers/timecodes that parse, it does
  not change the value produced for any input that parses.
* External effects (the `ffmpeg` subprocess, `send2trash`, `os.stat`)
  are inputs of the model: an oracle records whether each external call
  succeeds, and the file's birth epoch is a parameter.
-/

namespace QuickCut

/-- ASCII whitespace, the characters `str.strip()` removes
(space, tab, newline, carriage return, vertical tab, form feed). -/
def isPySpace (c : Char) : Bool :=
  c == ' ' || c == '\t' || c == '\n' || c == '\r' || c == '\x0b' || c == '\x0c'

/-- Model of Python `str.strip()` on a list of characters: drop
whitespace from both ends. -/
def pyStrip (l : List Char) : List Char :=
  ((l.dropWhile isPySpace).reverse.dropWhile isPySpace).reverse

/-- Model of Python `s.split(":")`: split on every colon; never returns
an empty list (splitting the empty string yields `[[]]`, as in Python
`"".split(":") == [""]`). -/
def pySplitColon : List Char → List (List Char)
  | [] => [[]]
  | c :: rest =>
    if c == ':' then [] :: pySplitColon rest
    else
      match pySplitColon rest with
      | [] => [[c]]
      | p :: ps => (c :: p) :: ps

/-- Numeric value of a decimal digit character. -/
def digitVal (c : Char) : Nat := c.toNat - '0'.toNat

/-- Decimal value of a list of ASCII digit characters, ignoring
underscores (Python `int` accepts `1_000`). -/
def digitsVal (l : List Char) : Nat :=
  l.foldl (fun acc c => if c == '_' then acc else acc * 10 + digitVal c) 0

/-- Tail of a valid Python integer literal body after its first digit:
a sequence of digits in which each underscore is followed by a digit
(Python allows single underscores only between digits). -/
def pyDigitsTail : List Char → Bool
  | [] => true
  | c :: rest =>
    if c == '_' then
      match rest with
      | [] => false
      | d :: rest2 => d.isDigit && pyDigitsTail rest2
    else
      c.isDigit && pyDigitsTail rest

/-- A valid Python integer literal body: nonempty, starts with a digit,
underscores only between digits. -/
def pyDigits : List Char → Bool
  | [] => false
  | c :: rest => c.isDigit && pyDigitsTail rest

/-- Model of Python `int(s)` for a string given as a character list:
strip surrounding whitespace, accept one optional sign, then a
digits-with-underscores body; anything else raises `ValueError`
(modelled as `none`). -/
def pyInt (l : List Char) : Option Int :=
  match pyStrip l with
  | [] => none
  | c :: rest =>
    if c == '+' then
      if pyDigits rest then some (Int.ofNat (digitsVal rest)) else none
    else if c == '-' then
      if pyDigits rest then some (-(Int.ofNat (digitsVal rest))) else none
    else
      if pyDigits (c :: rest) then some (Int.ofNat (digitsVal (c :: rest))) else none

/-- The function `parse_timecode` from `server.py`: strip the input, split on `:`;
one part is seconds, two parts are `MM:SS`, three are `HH:MM:SS`; any
other arity, or a component `int` rejects, raises `ValueError`
(modelled as `none`). -/
def parse_timecode (tc : String) : Option Int :=
  match pySplitColon (pyStrip tc.data) with
  | [a] => pyInt a
  | [a, b] =>
    match pyInt a, pyInt b with
    | some x, some y => some (x * 60 + y)
    | _, _ => none
  | [a, b, c] =>
    match pyInt a, pyInt b, pyInt c with
    | some x, some y, some z => some (x * 3600 + y * 60 + z)
    | _, _, _ => none
  | _ => none

example : parse_timecode "00:10" = some 10 := by decide
example : parse_timecode "1:02:03" = some 3723 := by decide
example : parse_timecode "-5" = some (-5) := by decide
example : parse_timecode "xx:10" = none := by decide
example : parse_timecode " 7 " = some 7 := by decide
example : parse_timecode "1:2:3:4" = none := by decide

/-- The function `safe_time_for_name` from `server.py`: `tc.replace(":", "-")`. -/
def safe_time_for_name (tc : String) : String :=
  String.mk (tc.data.map (fun c => if c == ':' then '-' else c))

/-- Model of the regular expression `bytes=(\d*)-(\d*)` matched at the
start of the header string, as `re.match` does in `_parse_range`: on a
match, returns the two (possibly empty) digit groups; the rest of the
string after the second group is unconstrained, as with `re.match`,
which does not anchor at the end.  `\d*` is greedy, and since `-` is
not a digit no backtracking can occur, so the groups are the maximal
digit runs. -/
def rangeRegexMatch (l : List Char) : Option (List Char × List Char) :=
  match l with
  | 'b' :: 'y' :: 't' :: 'e' :: 's' :: '=' :: rest =>
    match rest.dropWhile Char.isDigit with
    | c :: rest2 =>
      if c == '-' then some (rest.takeWhile Char.isDigit, rest2.takeWhile Char.isDigit)
      else none
    | [] => none
  | _ => none

/-- Decimal value of a nonempty run of digit characters, i.e. Python
`int(g)` for a regex group `g` matching `\d+`. -/
def natOfDigits (l : List Char) : Nat :=
  l.foldl (fun acc c => acc * 10 + digitVal c) 0

/-- The function `_parse_range` from `server.py`: resolve a `Range` header against a
file size into an inclusive `(start, end)` byte window, or raise
`ValueError` (modelled as `none`).  Mirrors the source branch for
branch: no regex match or both groups empty fails; an empty first group
is the suffix form `bytes=-N`, failing for `N <= 0` and otherwise
clamping the start to `0`; a present first group fails when
`start >= file_size` or `start > end` (where an empty second group
means end-of-file) and otherwise clamps the end to `file_size - 1`. -/
def _parse_range (range_header : String) (file_size : Int) : Option (Int × Int) :=
  match rangeRegexMatch range_header.data with
  | none => none
  | some (g1, g2) =>
    if g1 = [] ∧ g2 = [] then none
    else if g1 = [] then
      let length : Int := Int.ofNat (natOfDigits g2)
      if length ≤ 0 then none
      else some (max 0 (file_size - length), file_size - 1)
    else
      let start : Int := Int.ofNat (natOfDigits g1)
      let e : Int := if g2 = [] then file_size - 1 else Int.ofNat (natOfDigits g2)
      if start ≥ file_size ∨ start > e then none
      else some (start, min e (file_size - 1))

example : _parse_range "bytes=0-99" 1000 = some (0, 99) := by decide
example : _parse_range "bytes=10-" 1000 = some (10, 999) := by decide
example : _parse_range "bytes=-100" 1000 = some (900, 999) := by decide
example : _parse_range "bytes=-0" 1000 = none := by decide
example : _parse_range "bytes=-" 1000 = none := by decide
example : _parse_range "garbage" 1000 = none := by decide
example : _parse_range "bytes=10-" 5 = none := by decide
example : _parse_range "bytes=900-100" 1000 = none := by decide
example : _parse_range "bytes=-5000" 1000 = some (0, 999) := by decide

/-- The observable part of a `/api/stream` response for an existing
regular file: HTTP status, the `Content-Length` header (absent on the
bodiless 416 response), and the `Content-Range` header (present only
on 206). -/
structure StreamResponse where
  status : Nat
  contentLength : Option Int
  contentRange : Option String
deriving DecidableEq

/-- The status/header computation of the `api_stream` route for an
existing regular file of the given size.  `range_header` is the value
of `request.headers.get("Range")` (`none` when the header is absent).
The source guards the range branch with `if range_header:`, which is
false both for `None` and for an empty string; otherwise it resolves
the range (416 on `ValueError`) and serves 206 with
`Content-Range: bytes {start}-{end}/{file_size}`, or serves the whole
file with 200.  `Content-Length` is `end - start + 1` in both success
cases. -/
def api_stream (file_size : Int) (range_header : Option String) : StreamResponse :=
  let hdr := range_header.getD ""
  if hdr = "" then
    ⟨200, some ((file_size - 1) - 0 + 1), none⟩
  else
    match _parse_range hdr file_size with
    | some (s, e) =>
      ⟨206, some (e - s + 1),
        some ("bytes " ++ toString s ++ "-" ++ toString e ++ "/" ++ toString file_size)⟩
    | none => ⟨416, none, none⟩

example : api_stream 1000 none = ⟨200, some 1000, none⟩ := by decide
example : api_stream 1000 (some "bytes=0-99") =
    ⟨206, some 100, some "bytes 0-99/1000"⟩ := by decide
example : (api_stream 1000 (some "junk")).status = 416 := by decide

/-- The timestamp computation of `run_ffmpeg_segment`: parse the two
timecodes (a `ValueError` from either propagates out of the worker,
modelled as `none`) and compute the synthetic creation epoch
`creation_epoch + ssec` and modification epoch
`max(creation_epoch + esec, crt_epoch)`. -/
def run_ffmpeg_segment_epochs (start end_ : String) (creation_epoch : Int) :
    Option (Int × Int) :=
  match parse_timecode start, parse_timecode end_ with
  | some ssec, some esec =>
    let crt_epoch := creation_epoch + ssec
    some (crt_epoch, max (creation_epoch + esec) crt_epoch)
  | _, _ => none

example : run_ffmpeg_segment_epochs "00:10" "00:20" 1000 = some (1010, 1020) := by decide
example : run_ffmpeg_segment_epochs "00:20" "00:10" 1000 = some (1020, 1020) := by decide

/-- Model of POSIX `os.path.basename`: everything after the last
slash. -/
def basenameL (p : List Char) : List Char :=
  (p.reverse.takeWhile (fun c => !(c == '/'))).reverse

/-- Model of POSIX `os.path.dirname`: everything up to the last slash,
with trailing slashes stripped unless the head is made of slashes
only. -/
def dirname (p : String) : String :=
  let head := (p.data.reverse.dropWhile (fun c => !(c == '/'))).reverse
  if head = [] then ""
  else if head.all (fun c => c == '/') then String.mk head
  else String.mk ((head.reverse.dropWhile (fun c => c == '/')).reverse)

/-- The root part of POSIX `os.path.splitext` applied to a base name
(a string with no slash): cut at the last dot, unless every character
before that dot is itself a dot (so `.bashrc` keeps its dot). -/
def splitextRootL (b : List Char) : List Char :=
  match b.reverse.dropWhile (fun c => !(c == '.')) with
  | [] => b
  | _ :: beforeDot =>
    if beforeDot.all (fun c => c == '.') then b else beforeDot.reverse

/-- The function `stem_from_path` from `server.py`:
`os.path.splitext(os.path.basename(path))[0]`. -/
def stem_from_path (path : String) : String :=
  String.mk (splitextRootL (basenameL path.data))

/-- Model of POSIX `os.path.join(a, b)`: `b` if it is absolute,
otherwise `a + b` when `a` is empty or ends with a slash, otherwise
`a + "/" + b`. -/
def pyJoin (a b : String) : String :=
  match b.data with
  | '/' :: _ => b
  | _ =>
    match a.data with
    | [] => a ++ b
    | _ => if a.data.getLast? = some '/' then a ++ b else a ++ "/" ++ b

example : stem_from_path "/videos/video.mov" = "video" := by decide
example : dirname "/videos/video.mov" = "/videos" := by decide
example : pyJoin "/videos" "video_cuts" = "/videos/video_cuts" := by decide
example : stem_from_path "/videos/.bashrc" = ".bashrc" := by decide

/-- A requested segment, as carried in the `/api/cut` JSON body:
`seg["start"]` and `seg["end"]` (`end_` because `end` is a Lean
keyword). -/
structure Segment where
  start : String
  end_ : String
deriving DecidableEq

/-- Model of `str(i).zfill(2)` for a natural number `i`: pad the
decimal representation with leading zeros to width 2 (longer
representations are kept as they are). -/
def zfill2 (i : Nat) : String :=
  if i < 10 then "0" ++ toString i else toString i

/-- The output path computed in the `api_cut` loop for the segment at
1-based position `i` of a request with `nsegs` segments in total:
`basedir` is the source's directory for a single-segment job and the
`{stem}_cuts` sibling directory otherwise, and the file name carries
the (stripped, colon-to-hyphen sanitised) timecodes plus, for
multi-segment jobs, the zero-padded 1-based part index.  The extension
is the literal `.mp4` of the two f-strings in the source. -/
def outfile_of (src : String) (nsegs : Nat) (i : Nat) (seg : Segment) : String :=
  let stem := stem_from_path src
  let basedir := dirname src
  let outdir := if nsegs > 1 then pyJoin basedir (stem ++ "_cuts") else basedir
  let start_tag := safe_time_for_name (String.mk (pyStrip seg.start.data))
  let end_tag := safe_time_for_name (String.mk (pyStrip seg.end_.data))
  if nsegs = 1 then
    pyJoin outdir (stem ++ "__" ++ start_tag ++ "-" ++ end_tag ++ ".mp4")
  else
    pyJoin outdir (stem ++ "_part" ++ zfill2 i ++ "__" ++ start_tag ++ "-" ++ end_tag ++ ".mp4")

example : outfile_of "/videos/video.mov" 1 1 ⟨"00:10", "00:20"⟩ =
    "/videos/video__00-10-00-20.mp4" := by decide
example : outfile_of "/videos/video.mov" 3 2 ⟨"1:00", "2:00"⟩ =
    "/videos/video_cuts/video_part02__1-00-2-00.mp4" := by decide

/-- One entry of the `results` list returned by `/api/cut`:
a successful segment export (with its output path and the synthetic
creation/modification epochs whose formatted forms the JSON carries),
a failed segment (ffmpeg nonzero exit or a propagated exception such
as a timecode `ValueError`), or the entry appended when `send2trash`
itself fails. -/
inductive ResultEntry where
  | okSeg (i : Nat) (output : String) (crt mod : Int) : ResultEntry
  | failSeg (i : Nat) : ResultEntry
  | failTrash : ResultEntry
deriving DecidableEq

/-- The `ok` field of a result entry. -/
def ResultEntry.isOk : ResultEntry → Bool
  | .okSeg _ _ _ _ => true
  | _ => false

/-- Whether an entry is a failed per-segment result (as opposed to the
trash-failure entry). -/
def ResultEntry.isSegFail : ResultEntry → Bool
  | .failSeg _ => true
  | _ => false

/-- Outcomes of the external effects a `/api/cut` request performs:
whether the `ffmpeg` invocation for the segment at each 1-based
position exits zero, and whether `send2trash` succeeds if invoked. -/
structure CutEnv where
  ffmpegOk : Nat → Bool
  trashOk : Bool

/-- The worker body `run_ffmpeg_segment` for the segment at 1-based
position `i`: parsing either timecode raises (a failed entry once the
future is collected); otherwise ffmpeg runs and a nonzero exit is a
failed entry; on success the entry carries the output path and the
computed epochs.  The `touch`/`SetFile` timestamp updates are
best-effort `subprocess.call`s whose return value is ignored, so they
do not appear in the result. -/
def process_segment (env : CutEnv) (i : Nat) (outfile : String) (seg : Segment)
    (birth_epoch : Int) : ResultEntry :=
  match run_ffmpeg_segment_epochs (String.mk (pyStrip seg.start.data))
      (String.mk (pyStrip seg.end_.data)) birth_epoch with
  | none => .failSeg i
  | some (crt, mod) =>
    if env.ffmpegOk i then .okSeg i outfile crt mod else .failSeg i

/-- The per-segment results of a `/api/cut` request, one per segment,
indexed as `enumerate(segments, start=1)` does.  The source collects
them in `as_completed` (completion) order, which is scheduler
dependent; the model lists them in submission order, and the
properties verified about them (counts, membership, the all-successful
test) do not depend on the order. -/
def per_seg_results (env : CutEnv) (src : String) (birth_epoch : Int) :
    Nat → Nat → List Segment → List ResultEntry
  | _, _, [] => []
  | n, i, seg :: rest =>
    process_segment env i (outfile_of src n i seg) seg birth_epoch ::
      per_seg_results env src birth_epoch n (i + 1) rest

/-- The response of a well-formed `/api/cut` request, together with
two ghost fields recording the request's trash side effect: whether
`send2trash` was invoked, and which files it moved to the trash. -/
structure CutResponse where
  ok : Bool
  results : List ResultEntry
  trashedOriginal : Bool
  trashAttempted : Bool
  trashedFiles : List String
deriving DecidableEq

/-- The tail of the `api_cut` route after all segments have been
collected: the source is sent to the trash only when the flag is set
and every result is successful (`all(r.get("ok") for r in results)`);
a failing `send2trash` appends one failed entry and leaves
`trashedOriginal` false.  The envelope is `ok: true` in every case. -/
def cut_response (env : CutEnv) (src : String) (results : List ResultEntry)
    (trash : Bool) : CutResponse :=
  if trash && results.all ResultEntry.isOk then
    if env.trashOk then ⟨true, results, true, true, [src]⟩
    else ⟨true, results ++ [.failTrash], false, true, []⟩
  else ⟨true, results, false, false, []⟩

/-- The `api_cut` route.  `src_isfile` is the outcome of the
`os.path.isfile(src)` check and `birth_epoch` the baseline from
`birth_mtime(src)` (birth time, falling back to mtime).  A falsy path,
a missing file or an empty segment list is the 400 error (`none`).
Otherwise every segment is exported (`per_seg_results`) and the trash
step runs (`cut_response`). -/
def api_cut (env : CutEnv) (src : String) (src_isfile : Bool) (birth_epoch : Int)
    (segments : List Segment) (trash : Bool) : Option CutResponse :=
  if src = "" ∨ src_isfile = false then none
  else if segments = [] then none
  else
    some (cut_response env src
      (per_seg_results env src birth_epoch segments.length 1 segments) trash)

/-- The constant `MAX_WORKERS = os.cpu_count() or 4`: `os.cpu_count()` returns
`None` when the count is undeterminable, and Python's `or` falls
through to `4` exactly on the falsy values `None` and `0`. -/
def MAX_WORKERS (cpu_count : Option Nat) : Nat :=
  match cpu_count with
  | none => 4
  | some n => if n = 0 then 4 else n

example : MAX_WORKERS none = 4 := by decide
example : MAX_WORKERS (some 8) = 8 := by decide
example : MAX_WORKERS (some 2) = 2 := by decide

/-- A timecode component whose stripped text begins with a minus sign
(the one way Python `int` can produce a negative value). -/
def negComponent (part : List Char) : Bool :=
  (pyStrip part).head? == some '-'

/-- The failure condition of amended claim C5, written from the
spec's words: resolution fails exactly when the header does not match
the pattern, both groups are empty, the suffix form has `N = 0`
(digit groups cannot be negative), or the start bound is present and
either `start >= size`, or the end bound is also present with
`start > end`. -/
def range_fails_amended (range_header : String) (file_size : Int) : Bool :=
  match rangeRegexMatch range_header.data with
  | none => true
  | some (g1, g2) =>
    if g1 = [] ∧ g2 = [] then true
    else if g1 = [] then natOfDigits g2 == 0
    else
      decide (file_size ≤ (natOfDigits g1 : Int)) ||
        (!g2.isEmpty && decide ((natOfDigits g2 : Int) < (natOfDigits g1 : Int)))

/-- Whether the export of the segment at 1-based position `i`
succeeds: both timecodes parse and its ffmpeg invocation exits
zero. -/
def seg_ok (env : CutEnv) (i : Nat) (seg : Segment) (B : Int) : Bool :=
  (run_ffmpeg_segment_epochs (String.mk (pyStrip seg.start.data))
      (String.mk (pyStrip seg.end_.data)) B).isSome
    && env.ffmpegOk i

/-- The number of segments, at 1-based positions counted from `i`,
whose export fails. -/
def countFailedFrom (env : CutEnv) (B : Int) : Nat → List Segment → Nat
  | _, [] => 0
  | i, seg :: rest =>
    (if seg_ok env i seg B then 0 else 1) + countFailedFrom env B (i + 1) rest

/-! ## Helper lemmas -/

/-- Behaviour of `takeWhile` and `dropWhile` on an append whose left part satisfies the
predicate everywhere and whose right part starts with a violating
element (or is empty). -/
theorem takeWhile_dropWhile_append {p : Char → Bool} {l1 l2 : List Char}
    (h1 : ∀ c ∈ l1, p c = true) (h2 : ∀ c ∈ l2.head?, p c = false) :
    (l1 ++ l2).takeWhile p = l1 ∧ (l1 ++ l2).dropWhile p = l2 := by
  induction l1 with
  | nil =>
    cases l2 with
    | nil => simp
    | cons c r =>
      have hc : p c = false := h2 c (by simp)
      simp [List.takeWhile_cons, List.dropWhile_cons, hc]
  | cons a l ih =>
    have ha : p a = true := h1 a (by simp)
    have := ih (fun c hc => h1 c (by simp [hc]))
    simp [List.takeWhile_cons, List.dropWhile_cons, ha, this.1, this.2]

/-- A nonnegative result from `pyInt` when the component does not
begin with a minus sign. -/
theorem pyInt_nonneg {l : List Char} {v : Int} (hv : pyInt l = some v)
    (hneg : negComponent l = false) : 0 ≤ v := by
  unfold pyInt at hv
  unfold negComponent at hneg
  split at hv
  · exact absurd hv (by simp)
  · rename_i c rest heq
    rw [heq, List.head?_cons] at hneg
    split at hv
    · split at hv
      · injection hv with hv; exact hv ▸ Int.ofNat_nonneg _
      · exact absurd hv (by simp)
    · split at hv
      · rename_i hminus
        simp [hminus] at hneg
      · split at hv
        · injection hv with hv; exact hv ▸ Int.ofNat_nonneg _
        · exact absurd hv (by simp)

/-! ## Claim theorems -/

/-- C1: for every segment whose start and end timecodes parse
successfully, with baseline creation epoch `B`, the exporter computes
the segment's synthetic creation epoch as exactly `B + parse(start)`
and its synthetic modification epoch as exactly
`max(B + parse(end), B + parse(start))`; in particular for
`start="00:10"`, `end="00:20"` the creation epoch is `B + 10` and the
modification epoch is `B + 20`. -/
theorem run_ffmpeg_segment_epochs_correct :
    (∀ (start end_ : String) (B s e : Int),
        parse_timecode start = some s → parse_timecode end_ = some e →
        run_ffmpeg_segment_epochs start end_ B = some (B + s, max (B + e) (B + s))) ∧
    (∀ B : Int, run_ffmpeg_segment_epochs "00:10" "00:20" B = some (B + 10, B + 20)) := by
  constructor
  · intro start end_ B s e hs he
    unfold run_ffmpeg_segment_epochs
    rw [hs, he]
  · intro B
    simp only [run_ffmpeg_segment_epochs,
      show parse_timecode "00:10" = some 10 by decide,
      show parse_timecode "00:20" = some 20 by decide,
      Option.some.injEq, Prod.mk.injEq]
    exact ⟨trivial, max_eq_left (by omega)⟩

/-- Witness for C1 at `start="0:05"`, `end="0:15"`, `B = 1000`. -/
theorem run_ffmpeg_segment_epochs_correct_witness :
    run_ffmpeg_segment_epochs "0:05" "0:15" 1000 =
      some (1000 + 5, max (1000 + 15) (1000 + 5)) :=
  run_ffmpeg_segment_epochs_correct.1 "0:05" "0:15" 1000 5 15 (by decide) (by decide)

/-- C8 counterexample: `parse_timecode` accepts a signed component, so
`"-5"` parses successfully to the negative value `-5` instead of
failing or being non-negative. -/
theorem parse_timecode_negative_counterexample :
    parse_timecode "-5" = some (-5) ∧ (-5 : Int) < 0 := by decide

/-- C8 (amended): for every input string the timecode parser either
fails or returns an integer number of seconds, and the result is
non-negative whenever no colon-separated component of the stripped
input begins with a minus sign. -/
theorem parse_timecode_nonneg :
    ∀ (tc : String) (s : Int), parse_timecode tc = some s →
      (∀ part ∈ pySplitColon (pyStrip tc.data), negComponent part = false) →
      0 ≤ s := by
  intro tc s h hparts
  unfold parse_timecode at h
  split at h
  · rename_i a heq
    exact pyInt_nonneg h (hparts a (by rw [heq]; simp))
  · rename_i a b heq
    have hpa : negComponent a = false := hparts a (by rw [heq]; simp)
    have hpb : negComponent b = false := hparts b (by rw [heq]; simp)
    split at h
    · rename_i x y hA hB
      injection h with h
      have hx := pyInt_nonneg hA hpa
      have hy := pyInt_nonneg hB hpb
      omega
    · exact absurd h (by simp)
  · rename_i a b c heq
    have hpa : negComponent a = false := hparts a (by rw [heq]; simp)
    have hpb : negComponent b = false := hparts b (by rw [heq]; simp)
    have hpc : negComponent c = false := hparts c (by rw [heq]; simp)
    split at h
    · rename_i x y z hA hB hC
      injection h with h
      have hx := pyInt_nonneg hA hpa
      have hy := pyInt_nonneg hB hpb
      have hz := pyInt_nonneg hC hpc
      omega
    · exact absurd h (by simp)
  · exact absurd h (by simp)

/-- Witness for C8 (amended) at `tc = "00:10"`. -/
theorem parse_timecode_nonneg_witness : (0 : Int) ≤ 10 ∧ parse_timecode "00:10" = some 10 :=
  ⟨parse_timecode_nonneg "00:10" 10 (by decide) (by decide), by decide⟩

/-- C9 counterexample: on a host reporting 2 logical CPUs the worker
pool bound is 2, not `max(2, 4) = 4`, so the pool can be smaller
than 4. -/
theorem MAX_WORKERS_counterexample :
    MAX_WORKERS (some 2) = 2 ∧ MAX_WORKERS (some 2) ≠ max 2 4 ∧
      MAX_WORKERS (some 2) < 4 := by decide

/-- C9 (amended): the worker pool bound equals the host's logical CPU
count whenever that count is reported and nonzero, and falls back to 4
only when the count is unavailable or zero; hosts reporting one to
three CPUs get a pool smaller than 4. -/
theorem MAX_WORKERS_amended :
    ∀ cpu_count : Option Nat,
      ((cpu_count = none ∨ cpu_count = some 0) ∧ MAX_WORKERS cpu_count = 4) ∨
      (∃ n, cpu_count = some n ∧ 0 < n ∧ MAX_WORKERS cpu_count = n) := by
  intro c
  match c with
  | none => exact Or.inl ⟨Or.inl rfl, rfl⟩
  | some n =>
    by_cases h : n = 0
    · subst h; exact Or.inl ⟨Or.inr rfl, rfl⟩
    · exact Or.inr ⟨n, rfl, Nat.pos_of_ne_zero h, by simp [MAX_WORKERS, h]⟩

/-- Unfolding of `rangeRegexMatch` past the literal `bytes=` prefix. -/
theorem rangeRegexMatch_eq (rest : List Char) :
    rangeRegexMatch ('b' :: 'y' :: 't' :: 'e' :: 's' :: '=' :: rest) =
      (match rest.dropWhile Char.isDigit with
      | c :: rest2 =>
        if c == '-' then some (rest.takeWhile Char.isDigit, rest2.takeWhile Char.isDigit)
        else none
      | [] => none) := rfl

/-- A list made of digits is kept whole by `takeWhile`. -/
theorem takeWhile_digits_self {g : List Char} (h : ∀ c ∈ g, c.isDigit = true) :
    g.takeWhile Char.isDigit = g := by
  have := @takeWhile_dropWhile_append Char.isDigit g [] h (by simp)
  simpa using this.1

/-- The regex groups extracted from a header of the shape
`bytes=<g1>-<g2>` with digit-only groups. -/
theorem rangeRegexMatch_digits (g1 g2 : List Char)
    (h1d : ∀ c ∈ g1, c.isDigit = true) (h2d : ∀ c ∈ g2, c.isDigit = true) :
    rangeRegexMatch ('b' :: 'y' :: 't' :: 'e' :: 's' :: '=' :: (g1 ++ '-' :: g2)) =
      some (g1, g2) := by
  have hd : ∀ c ∈ (('-' :: g2).head?), Char.isDigit c = false := by
    intro c hc
    simp only [List.head?_cons, Option.mem_def, Option.some.injEq] at hc
    subst hc; decide
  have hdt := takeWhile_dropWhile_append h1d hd
  rw [rangeRegexMatch_eq, hdt.2]
  simp [hdt.1, takeWhile_digits_self h2d]

/-- C4: for every `Range` header of the form `bytes=a-b` with both
bounds present as digit strings and `0 <= a <= b < size`, the range
resolver succeeds and returns exactly the window
`(a, min(b, size - 1))`. -/
theorem parse_range_both_present :
    ∀ (g1 g2 : List Char) (size : Int),
      g1 ≠ [] → (∀ c ∈ g1, c.isDigit = true) →
      g2 ≠ [] → (∀ c ∈ g2, c.isDigit = true) →
      (natOfDigits g1 : Int) ≤ (natOfDigits g2 : Int) →
      (natOfDigits g2 : Int) < size →
      _parse_range (String.mk ('b' :: 'y' :: 't' :: 'e' :: 's' :: '=' :: (g1 ++ '-' :: g2)))
          size =
        some ((natOfDigits g1 : Int), min ((natOfDigits g2 : Int)) (size - 1)) := by
  intro g1 g2 size h1ne h1d h2ne h2d hab hbs
  have hnge : ¬((natOfDigits g1 : Int) ≥ size) := by omega
  have hngt : ¬((natOfDigits g1 : Int) > (natOfDigits g2 : Int)) := by omega
  unfold _parse_range
  rw [show (String.mk ('b' :: 'y' :: 't' :: 'e' :: 's' :: '=' :: (g1 ++ '-' :: g2))).data =
      'b' :: 'y' :: 't' :: 'e' :: 's' :: '=' :: (g1 ++ '-' :: g2) from rfl,
    rangeRegexMatch_digits g1 g2 h1d h2d]
  simp [h1ne, h2ne, hnge, hngt]

/-- Witness for C4 at header `bytes=1-5` and size `10`. -/
theorem parse_range_both_present_witness :
    _parse_range (String.mk ('b' :: 'y' :: 't' :: 'e' :: 's' :: '=' ::
        (['1'] ++ '-' :: ['5']))) 10 =
      some ((natOfDigits ['1'] : Int), min ((natOfDigits ['5'] : Int)) (10 - 1)) :=
  parse_range_both_present ['1'] ['5'] 10 (by decide) (by decide) (by decide) (by decide)
    (by decide) (by decide)

/-- C10: for every suffix-form header `bytes=-N` with `N` strictly
greater than the file size (and a positive file size), range
resolution does not fail: the window start is clamped to `0` and the
whole file `(0, size - 1)` is returned. -/
theorem parse_range_suffix_clamps :
    ∀ (g2 : List Char) (size : Int),
      g2 ≠ [] → (∀ c ∈ g2, c.isDigit = true) →
      0 < size → size < (natOfDigits g2 : Int) →
      _parse_range (String.mk ('b' :: 'y' :: 't' :: 'e' :: 's' :: '=' :: '-' :: g2)) size =
        some (0, size - 1) := by
  intro g2 size h2ne h2d hpos hover
  have hm := rangeRegexMatch_digits [] g2 (by simp) h2d
  rw [List.nil_append] at hm
  have hnle : ¬((natOfDigits g2 : Int) ≤ 0) := by omega
  have hmax : max 0 (size - (natOfDigits g2 : Int)) = 0 := max_eq_left (by omega)
  unfold _parse_range
  rw [show (String.mk ('b' :: 'y' :: 't' :: 'e' :: 's' :: '=' :: '-' :: g2)).data =
      'b' :: 'y' :: 't' :: 'e' :: 's' :: '=' :: '-' :: g2 from rfl, hm]
  simp [h2ne, hnle, hmax]

/-- Witness for C10 at header `bytes=-9` and size `5`. -/
theorem parse_range_suffix_clamps_witness :
    _parse_range (String.mk ('b' :: 'y' :: 't' :: 'e' :: 's' :: '=' :: '-' :: ['9'])) 5 =
      some (0, 5 - 1) :=
  parse_range_suffix_clamps ['9'] 5 (by decide) (by decide) (by decide) (by decide)

/-- C5 counterexample: the open-ended header `bytes=10-` on a file of
size 5 matches the pattern, has a nonempty start group and an empty
end group, so none of the claim's listed failure conditions holds —
yet resolution fails, because the code also rejects `start >= size`
when the end bound is absent. -/
theorem parse_range_open_end_counterexample :
    _parse_range "bytes=10-" 5 = none ∧
    rangeRegexMatch "bytes=10-".data = some (['1', '0'], []) ∧
    (['1', '0'] : List Char) ≠ [] ∧
    natOfDigits ['1', '0'] = 10 ∧ ¬(10 ≤ 0) ∧ (5 : Int) > 0 := by decide

/-- C5 (amended): for every header value and every file size > 0,
resolution fails exactly when the header does not match the pattern,
both groups are empty, the suffix form carries `N = 0`, or the start
bound is present and either `start >= size` or the end bound is also
present with `start > end`. -/
theorem parse_range_failure_iff :
    ∀ (hdr : String) (size : Int), 0 < size →
      (_parse_range hdr size).isNone = range_fails_amended hdr size := by
  intro hdr size _
  unfold _parse_range range_fails_amended
  cases hm : rangeRegexMatch hdr.data with
  | none => simp
  | some p =>
    obtain ⟨g1, g2⟩ := p
    by_cases h12 : g1 = [] ∧ g2 = []
    · simp [h12]
    · by_cases h1 : g1 = []
      · have h2 : g2 ≠ [] := fun hc => h12 ⟨h1, hc⟩
        by_cases hz : natOfDigits g2 = 0
        · simp [h1, h2, hz]
        · have hnle : ¬((natOfDigits g2 : Int) ≤ 0) := by omega
          simp [h1, h2, hz, hnle]
      · by_cases h2 : g2 = []
        · subst h2
          by_cases hge : size ≤ (natOfDigits g1 : Int)
          · have : (natOfDigits g1 : Int) ≥ size ∨
                (natOfDigits g1 : Int) > size - 1 := Or.inl hge
            simp [h12, h1, hge, this]
          · have : ¬((natOfDigits g1 : Int) ≥ size ∨
                (natOfDigits g1 : Int) > size - 1) := by omega
            simp [h12, h1, hge, this]
            omega
        · by_cases hge : size ≤ (natOfDigits g1 : Int)
          · have : (natOfDigits g1 : Int) ≥ size ∨
                (natOfDigits g1 : Int) > (natOfDigits g2 : Int) := Or.inl hge
            simp [h12, h1, h2, hge, this]
          · by_cases hgt : (natOfDigits g2 : Int) < (natOfDigits g1 : Int)
            · have : (natOfDigits g1 : Int) ≥ size ∨
                  (natOfDigits g1 : Int) > (natOfDigits g2 : Int) := Or.inr hgt
              simp [h12, h1, h2, hge, hgt, this]
            · have : ¬((natOfDigits g1 : Int) ≥ size ∨
                  (natOfDigits g1 : Int) > (natOfDigits g2 : Int)) := by omega
              simp [h12, h1, h2, hge, hgt, this]

/-- Witness for C5 (amended) at header `bytes=10-` and size `5`. -/
theorem parse_range_failure_iff_witness :
    (0 : Int) < 5 ∧ (_parse_range "bytes=10-" 5).isNone = range_fails_amended "bytes=10-" 5 :=
  ⟨by decide, parse_range_failure_iff "bytes=10-" 5 (by decide)⟩

/-- The empty header never resolves (the regex needs the `bytes=`
prefix). -/
theorem parse_range_empty (size : Int) : _parse_range "" size = none := rfl

/-- C6 counterexample: a present-but-empty `Range` header value fails
resolution, yet the response is 200 (the full file), not 416 — the
source's `if range_header:` truthiness test sends the empty value down
the no-header path before resolution is ever attempted. -/
theorem api_stream_empty_header_counterexample :
    _parse_range "" 1000 = none ∧
    (api_stream 1000 (some "")).status = 200 ∧
    (api_stream 1000 (some "")).status ≠ 416 := by decide

/-- C6 (amended): for a stream request on an existing regular file —
with no `Range` header, or with a present-but-empty header value
(which the truthiness test treats like an absent header), the response
is 200 with `Content-Length` equal to the full file size; with a
header resolving to `(s, e)` the response is 206 with
`Content-Range: bytes {s}-{e}/{size}` and `Content-Length` exactly
`e - s + 1`; with a nonempty header that fails resolution the response
is 416. -/
theorem api_stream_amended :
    (∀ size : Int, api_stream size none = ⟨200, some size, none⟩) ∧
    (∀ size : Int, api_stream size (some "") = ⟨200, some size, none⟩) ∧
    (∀ (size : Int) (hdr : String) (s e : Int),
        _parse_range hdr size = some (s, e) →
        api_stream size (some hdr) =
          ⟨206, some (e - s + 1),
            some ("bytes " ++ toString s ++ "-" ++ toString e ++ "/" ++ toString size)⟩) ∧
    (∀ (size : Int) (hdr : String), hdr ≠ "" → _parse_range hdr size = none →
        (api_stream size (some hdr)).status = 416) := by
  have hfull : ∀ size : Int, ∀ h : Option String, h.getD "" = "" →
      api_stream size h = ⟨200, some size, none⟩ := by
    intro size h hh
    simp only [api_stream, hh, if_pos rfl]
    have : size - 1 - 0 + 1 = size := by omega
    rw [this]
    simp
  refine ⟨fun size => hfull size none rfl, fun size => hfull size (some "") rfl, ?_, ?_⟩
  · intro size hdr s e h
    have hne : hdr ≠ "" := by
      intro hc; subst hc
      rw [parse_range_empty] at h
      exact Option.noConfusion h
    simp only [api_stream, Option.getD_some, if_neg hne, h]
  · intro size hdr hne h
    simp only [api_stream, Option.getD_some, if_neg hne, h]

/-- Witness for C6 (amended) at size 1000 with headers `bytes=0-99`
(valid) and `junk` (invalid, nonempty). -/
theorem api_stream_amended_witness :
    (api_stream 1000 (some "bytes=0-99") =
      ⟨206, some (99 - 0 + 1),
        some ("bytes " ++ toString (0 : Int) ++ "-" ++ toString (99 : Int) ++ "/" ++
          toString (1000 : Int))⟩) ∧
    (api_stream 1000 (some "junk")).status = 416 :=
  ⟨api_stream_amended.2.2.1 1000 "bytes=0-99" 0 99 (by decide),
    api_stream_amended.2.2.2 1000 "junk" (by decide) (by decide)⟩

/-- The entry of `per_seg_results` at 0-based position `i0` is the
processed segment at that position, carrying the 1-based index
`j + i0` and the output path computed for it. -/
theorem per_seg_results_get? :
    ∀ (env : CutEnv) (src : String) (B : Int) (n j : Nat) (segs : List Segment)
      (i0 : Nat) (hi : i0 < segs.length),
      (per_seg_results env src B n j segs).get? i0 =
        some (process_segment env (j + i0) (outfile_of src n (j + i0) (segs.get ⟨i0, hi⟩))
          (segs.get ⟨i0, hi⟩) B) := by
  intro env src B n j segs
  induction segs generalizing j with
  | nil => intro i0 hi; simp at hi
  | cons seg rest ih =>
    intro i0 hi
    cases i0 with
    | zero => simp [per_seg_results]
    | succ k =>
      have hk : k < rest.length := Nat.lt_of_succ_lt_succ (by simpa using hi)
      have h2 := ih (j + 1) k hk
      have harith : j + 1 + k = j + (k + 1) := by omega
      rw [harith] at h2
      simpa [per_seg_results] using h2

/-- C2 counterexample: a single-segment export of the source
`/videos/video.mov` is written with the literal `.mp4` extension, not
the source's own `.mov` extension. -/
theorem outfile_extension_counterexample :
    outfile_of "/videos/video.mov" 1 1 ⟨"00:10", "00:20"⟩ =
      "/videos/video__00-10-00-20.mp4" ∧
    outfile_of "/videos/video.mov" 1 1 ⟨"00:10", "00:20"⟩ ≠
      "/videos/video__00-10-00-20.mov" := by decide

/-- C2 (amended): a single-segment job writes its output into the
source's own directory under
`{stem}__{start}-{end}.mp4` (timecodes stripped, colons replaced by
hyphens, the extension always the literal `.mp4`); a job with two or
more segments writes every output into the `{stem}_cuts` sibling
directory under `{stem}_part{NN}__{start}-{end}.mp4`; and the entry at
each 0-based position `i0` of the per-segment results uses the output
path computed for 1-based index `1 + i0`, so `NN` is the zero-padded
1-based submission position. -/
theorem outfile_of_amended :
    (∀ (src : String) (seg : Segment),
        outfile_of src 1 1 seg =
          pyJoin (dirname src)
            (stem_from_path src ++ "__" ++
              safe_time_for_name (String.mk (pyStrip seg.start.data)) ++ "-" ++
              safe_time_for_name (String.mk (pyStrip seg.end_.data)) ++ ".mp4")) ∧
    (∀ (src : String) (n i : Nat) (seg : Segment), 2 ≤ n →
        outfile_of src n i seg =
          pyJoin (pyJoin (dirname src) (stem_from_path src ++ "_cuts"))
            (stem_from_path src ++ "_part" ++ zfill2 i ++ "__" ++
              safe_time_for_name (String.mk (pyStrip seg.start.data)) ++ "-" ++
              safe_time_for_name (String.mk (pyStrip seg.end_.data)) ++ ".mp4")) ∧
    (∀ (env : CutEnv) (src : String) (B : Int) (n : Nat) (segs : List Segment)
        (i0 : Nat) (hi : i0 < segs.length),
        (per_seg_results env src B n 1 segs).get? i0 =
          some (process_segment env (1 + i0)
            (outfile_of src n (1 + i0) (segs.get ⟨i0, hi⟩)) (segs.get ⟨i0, hi⟩) B)) := by
  refine ⟨?_, ?_, ?_⟩
  · intro src seg
    simp [outfile_of]
  · intro src n i seg hn
    have h1 : n > 1 := by omega
    have h2 : ¬(n = 1) := by omega
    simp [outfile_of, h1, h2]
  · intro env src B n segs i0 hi
    exact per_seg_results_get? env src B n 1 segs i0 hi

/-- Witness for C2 (amended) at a three-segment job on
`/videos/video.mov`, middle position. -/
theorem outfile_of_amended_witness :
    outfile_of "/videos/video.mov" 3 2 ⟨"1:00", "2:00"⟩ =
      pyJoin (pyJoin (dirname "/videos/video.mov")
          (stem_from_path "/videos/video.mov" ++ "_cuts"))
        (stem_from_path "/videos/video.mov" ++ "_part" ++ zfill2 2 ++ "__" ++
          safe_time_for_name (String.mk (pyStrip "1:00".data)) ++ "-" ++
          safe_time_for_name (String.mk (pyStrip "2:00".data)) ++ ".mp4") :=
  outfile_of_amended.2.1 "/videos/video.mov" 3 2 ⟨"1:00", "2:00"⟩ (by decide)

/-- A processed segment is successful exactly when its timecodes
parse and its ffmpeg call succeeds. -/
theorem process_segment_isOk (env : CutEnv) (i : Nat) (out : String) (seg : Segment)
    (B : Int) : (process_segment env i out seg B).isOk = seg_ok env i seg B := by
  unfold process_segment seg_ok
  cases h : run_ffmpeg_segment_epochs (String.mk (pyStrip seg.start.data))
      (String.mk (pyStrip seg.end_.data)) B with
  | none => simp [ResultEntry.isOk]
  | some p =>
    obtain ⟨crt, mod⟩ := p
    cases hff : env.ffmpegOk i <;> simp [hff, ResultEntry.isOk]

/-- A processed segment is a failed segment entry exactly when it is
not successful. -/
theorem process_segment_isSegFail (env : CutEnv) (i : Nat) (out : String) (seg : Segment)
    (B : Int) : (process_segment env i out seg B).isSegFail = !seg_ok env i seg B := by
  unfold process_segment seg_ok
  cases h : run_ffmpeg_segment_epochs (String.mk (pyStrip seg.start.data))
      (String.mk (pyStrip seg.end_.data)) B with
  | none => simp [ResultEntry.isSegFail]
  | some p =>
    obtain ⟨crt, mod⟩ := p
    cases hff : env.ffmpegOk i <;> simp [hff, ResultEntry.isSegFail]

/-- Counting the per-segment results: the failed entries are exactly
the failing segments, and together with the successful entries they
cover the whole segment list. -/
theorem per_seg_results_counts (env : CutEnv) (src : String) (B : Int) (n : Nat) :
    ∀ (segs : List Segment) (j : Nat),
      (per_seg_results env src B n j segs).countP ResultEntry.isSegFail =
        countFailedFrom env B j segs ∧
      (per_seg_results env src B n j segs).countP ResultEntry.isOk +
        countFailedFrom env B j segs = segs.length := by
  intro segs
  induction segs with
  | nil => intro j; simp [per_seg_results, countFailedFrom]
  | cons seg rest ih =>
    intro j
    obtain ⟨ih1, ih2⟩ := ih (j + 1)
    unfold per_seg_results countFailedFrom
    rw [List.countP_cons, List.countP_cons, process_segment_isSegFail, process_segment_isOk,
      ih1]
    cases h : seg_ok env j seg B <;> simp [h] <;> omega

/-- The batch envelope is always `ok: true`. -/
theorem cut_response_ok (env : CutEnv) (src : String) (results : List ResultEntry)
    (trash : Bool) : (cut_response env src results trash).ok = true := by
  unfold cut_response
  split
  · split <;> rfl
  · rfl

/-- The trash step never changes the count of entries satisfying a
predicate that is false on the trash-failure entry. -/
theorem cut_response_countP (env : CutEnv) (src : String) (results : List ResultEntry)
    (trash : Bool) (p : ResultEntry → Bool) (hp : p .failTrash = false) :
    (cut_response env src results trash).results.countP p = results.countP p := by
  unfold cut_response
  split
  · split
    · rfl
    · simp [List.countP_append, List.countP_cons, hp]
  · rfl

/-- C3: for every well-formed cut request (non-falsy existing source
path, non-empty segment list) the batch response exists and reports
`ok: true` regardless of individual segment outcomes; the failed
per-segment entries are in bijection with the failing segments (one
failure among three segments gives exactly one failed entry), and the
successful entries account for all remaining segments. -/
theorem api_cut_batch_envelope :
    ∀ (env : CutEnv) (src : String) (B : Int) (segs : List Segment) (trash : Bool),
      src ≠ "" → segs ≠ [] →
      ∃ resp, api_cut env src true B segs trash = some resp ∧
        resp.ok = true ∧
        resp.results.countP ResultEntry.isSegFail = countFailedFrom env B 1 segs ∧
        resp.results.countP ResultEntry.isOk + countFailedFrom env B 1 segs =
          segs.length := by
  intro env src B segs trash hsrc hsegs
  refine ⟨cut_response env src (per_seg_results env src B segs.length 1 segs) trash,
    ?_, cut_response_ok env src _ trash, ?_, ?_⟩
  · unfold api_cut
    rw [if_neg (by simp [hsrc]), if_neg hsegs]
  · rw [cut_response_countP env src _ trash ResultEntry.isSegFail rfl]
    exact (per_seg_results_counts env src B segs.length segs 1).1
  · rw [cut_response_countP env src _ trash ResultEntry.isOk rfl]
    exact (per_seg_results_counts env src B segs.length segs 1).2

/-- Witness for C3: three segments, the middle one with a malformed
start timecode, ffmpeg succeeding everywhere — exactly one failing
segment, and the envelope and counts as the theorem states. -/
theorem api_cut_batch_envelope_witness :
    countFailedFrom ⟨fun _ => true, true⟩ 0 1
        [⟨"1", "2"⟩, ⟨"xx", "3"⟩, ⟨"4", "5"⟩] = 1 ∧
    ∃ resp, api_cut ⟨fun _ => true, true⟩ "/v/a.mp4" true 0
        [⟨"1", "2"⟩, ⟨"xx", "3"⟩, ⟨"4", "5"⟩] false = some resp ∧
      resp.ok = true ∧
      resp.results.countP ResultEntry.isSegFail =
        countFailedFrom ⟨fun _ => true, true⟩ 0 1 [⟨"1", "2"⟩, ⟨"xx", "3"⟩, ⟨"4", "5"⟩] ∧
      resp.results.countP ResultEntry.isOk +
        countFailedFrom ⟨fun _ => true, true⟩ 0 1 [⟨"1", "2"⟩, ⟨"xx", "3"⟩, ⟨"4", "5"⟩] = 3 :=
  ⟨by decide,
    api_cut_batch_envelope ⟨fun _ => true, true⟩ "/v/a.mp4" 0
      [⟨"1", "2"⟩, ⟨"xx", "3"⟩, ⟨"4", "5"⟩] false (by decide) (by decide)⟩

/-- C7: the trash step is attempted exactly when the trash flag is set
and every per-segment result is successful; every file it ever moves
to trash is the source; a nonempty trashed set means the move
succeeded and was reported; `trashedOriginal` is true exactly when
flag, all-successful and the trash operation itself all hold; and when
the attempted trash operation fails, the response keeps every
per-segment result (the produced outputs are not removed), appends
exactly one trash-failure entry, reports `trashedOriginal: false`,
and moves nothing. -/
theorem api_cut_trash_policy :
    ∀ (env : CutEnv) (src : String) (B : Int) (segs : List Segment) (trash : Bool)
      (resp : CutResponse),
      api_cut env src true B segs trash = some resp →
      (resp.trashAttempted =
        (trash && (per_seg_results env src B segs.length 1 segs).all ResultEntry.isOk)) ∧
      (∀ f ∈ resp.trashedFiles, f = src) ∧
      (resp.trashedFiles ≠ [] → resp.trashedOriginal = true) ∧
      (resp.trashedOriginal = true ↔
        trash = true ∧
        (per_seg_results env src B segs.length 1 segs).all ResultEntry.isOk = true ∧
        env.trashOk = true) ∧
      (resp.trashAttempted = true → env.trashOk = false →
        resp.results =
          per_seg_results env src B segs.length 1 segs ++ [ResultEntry.failTrash] ∧
        resp.trashedOriginal = false ∧ resp.trashedFiles = []) := by
  intro env src B segs trash resp h
  unfold api_cut at h
  split at h
  · exact absurd h (by simp)
  · split at h
    · exact absurd h (by simp)
    · injection h with h
      subst h
      unfold cut_response
      by_cases hta : (trash && (per_seg_results env src B segs.length 1 segs).all
          ResultEntry.isOk) = true
      · obtain ⟨ht1, ht2⟩ : trash = true ∧
            (per_seg_results env src B segs.length 1 segs).all ResultEntry.isOk = true := by
          simpa using hta
        rw [if_pos hta]
        cases htr : env.trashOk
        · rw [if_neg (by simp [htr])]
          refine ⟨hta.symm, by simp, by simp, by simp [htr], ?_⟩
          intro _ _
          exact ⟨rfl, rfl, rfl⟩
        · rw [if_pos rfl]
          refine ⟨hta.symm, by simp, fun _ => rfl, by simp [ht1, ht2, htr], ?_⟩
          intro _ htrf
          exact absurd htrf (by simp [htr])
      · rw [if_neg hta]
        refine ⟨?_, by simp, by simp, ?_, ?_⟩
        · cases hb : trash && (per_seg_results env src B segs.length 1 segs).all
              ResultEntry.isOk
          · rfl
          · exact absurd hb hta
        · constructor
          · intro hc; exact absurd hc (by simp)
          · rintro ⟨h1, h2, _⟩
            exact absurd (by rw [h1, h2]; rfl) hta
        · intro hc
          exact absurd hc (by simp)

/-- Witness for C7: trash flag set, one successful segment, failing
`send2trash` — the appended trash-failure entry, `trashedOriginal:
false`, and no file moved. -/
theorem api_cut_trash_policy_witness :
    api_cut ⟨fun _ => true, false⟩ "/v/a.mp4" true 1000 [⟨"0:05", "0:15"⟩] true =
      some ⟨true,
        per_seg_results ⟨fun _ => true, false⟩ "/v/a.mp4" 1000 1 1 [⟨"0:05", "0:15"⟩] ++
          [ResultEntry.failTrash], false, true, []⟩ ∧
    ((⟨true,
        per_seg_results ⟨fun _ => true, false⟩ "/v/a.mp4" 1000 1 1 [⟨"0:05", "0:15"⟩] ++
          [ResultEntry.failTrash], false, true, []⟩ : CutResponse).trashAttempted =
      (true && (per_seg_results ⟨fun _ => true, false⟩ "/v/a.mp4" 1000 1 1
        [⟨"0:05", "0:15"⟩]).all ResultEntry.isOk)) :=
  ⟨by decide,
    (api_cut_trash_policy ⟨fun _ => true, false⟩ "/v/a.mp4" 1000 [⟨"0:05", "0:15"⟩] true
      _ (by decide)).1⟩

end QuickCut
